import Mathlib

/-!
Verification development for the synthetic incident lifecycle simulator of
Fake_Ops_Center (`src/fake_ops_center/core/feeds.py` and
`src/fake_ops_center/core/models.py`).

Modelling conventions:

* The numpy generator `np.random.default_rng(seed)` is modelled as an
  abstract deterministic draw stream: a function `Nat → Nat` together with a
  position counter.  Each primitive draw consumes one raw value and advances
  the position, so the generator is a pure deterministic function of
  (seed, call sequence) exactly as the design document describes.  The
  numeric distributions (normal, exponential, Poisson, uniform) are not
  modelled distributionally: each primitive maps the raw draw into the
  correct support, keeping the exact consumption order of the Python code.
  Quantifying over all streams covers every sequence of outcomes the real
  generator can produce.

* Wall-clock time (`datetime.now(UTC)`) is an explicit input `now : ℚ` of
  every operation that reads the clock.  Timestamps and durations are
  rationals standing in for Python floats; none of the verified claims
  depends on floating-point rounding.

* Python's `IncidentTracker.active` is a `dict[str, Incident]` whose values
  are shared mutable `Incident` objects, and `step` emits the very same
  object references.  The model makes this aliasing explicit: `heap` is the
  list of all incidents ever created by the feed (one cell per object, in
  creation order), the dict's key set is the list `activeIdx` of creation
  ordinals (identifiers `A%04d` are in bijection with creation ordinals),
  and the emitted list is materialised from the heap *after* the whole tick,
  which is exactly what a Python caller observes when it reads the returned
  objects.
-/

namespace FakeOps

/-- Model of `numpy.random.Generator`: an abstract deterministic stream of
raw natural draws plus the current position.  `feeds.py` relies only on the
generator being a pure function of (seed, call sequence). -/
structure Rng where
  stream : Nat → Nat
  pos : Nat

/-- Consume one raw draw. -/
def Rng.next (r : Rng) : Nat × Rng :=
  (r.stream r.pos, ⟨r.stream, r.pos + 1⟩)

/-- Source `rng.random()`: a uniform rational in `[0, 1)`. -/
def Rng.random (r : Rng) : ℚ × Rng :=
  let p := r.next
  (((p.1 % 1000 : Nat) : ℚ) / 1000, p.2)

/-- Source `rng.integers(lo, hi)`: an integer in `[lo, hi)` (numpy half-open). -/
def Rng.integersBelow (lo hi : Nat) (r : Rng) : Nat × Rng :=
  let p := r.next
  (lo + p.1 % (hi - lo), p.2)

/-- Source `rng.uniform(lo, hi)`: a rational in `[lo, hi)`. -/
def Rng.uniformQ (lo hi : ℚ) (r : Rng) : ℚ × Rng :=
  let p := r.next
  (lo + (hi - lo) * (((p.1 % 1000 : Nat) : ℚ) / 1000), p.2)

/-- Source `rng.poisson(mean)`: a natural count.  The Poisson distribution has all
of `ℕ` as support, so the model returns the raw draw unchanged; the mean
only shapes probabilities, which are not modelled. -/
def Rng.poissonCount (mean : ℚ) (r : Rng) : Nat × Rng :=
  let _ := mean
  r.next

/-- Source `rng.normal(mean, std)`: a rational perturbation around `mean`. -/
def Rng.normalQ (mean std : ℚ) (r : Rng) : ℚ × Rng :=
  let p := r.next
  (mean + std * ((((p.1 % 2001 : Nat) : ℚ) - 1000) / 500), p.2)

/-- Source `rng.exponential(scale)`: a nonnegative rational. -/
def Rng.exponentialQ (scale : ℚ) (r : Rng) : ℚ × Rng :=
  let p := r.next
  (scale * (((p.1 % 1000 : Nat) : ℚ) / 100), p.2)

/-- Source `rng.choice(xs)` over a list of strings. -/
def Rng.choiceStr (xs : List String) (r : Rng) : String × Rng :=
  let p := r.next
  (xs.getD (p.1 % xs.length) "", p.2)

/-- Source `np.random.default_rng(seed)`: a concrete deterministic stream derived
from the seed (stand-in for PCG64; only determinism matters). -/
def default_rng (seed : ℤ) : Rng :=
  ⟨fun n => (seed.natAbs * 31 + n * 17) % 97, 0⟩

/-- Source `FeedState` (feeds.py): the shared seed plus generator. -/
structure FeedState where
  seed : ℤ
  rng : Rng

/-- Source `FeedState.__post_init__`: construct the generator from the seed. -/
def FeedState.make (seed : ℤ) : FeedState :=
  ⟨seed, default_rng seed⟩

/-- Source `FeedState.reset(seed=None)`: re-seed from the stored seed when no seed
is given, otherwise adopt and store the new seed. -/
def FeedState.reset (st : FeedState) (seed : Option ℤ) : FeedState :=
  match seed with
  | none => { st with rng := default_rng st.seed }
  | some s => { seed := s, rng := default_rng s }

/-- Source `IncidentStatus` (models.py). -/
inductive IncidentStatus where
  | NEW
  | ACKNOWLEDGED
  | IN_PROGRESS
  | RESOLVED
  deriving DecidableEq, Repr

/-- Source `IncidentSeverity` (models.py). -/
inductive IncidentSeverity where
  | LOW
  | MEDIUM
  | HIGH
  | CRITICAL
  deriving DecidableEq, Repr

/-- Source `list(IncidentSeverity)` in declaration order. -/
def severitiesList : List IncidentSeverity :=
  [.LOW, .MEDIUM, .HIGH, .CRITICAL]

/-- Source `Incident` (models.py).  Field defaults mirror the dataclass defaults;
`last_update`'s `default_factory=datetime.now` is passed explicitly at the
single construction site. -/
structure Incident where
  identifier : String
  timestamp : ℚ
  category : String
  severity : IncidentSeverity
  status : IncidentStatus
  region : String
  acknowledged : Bool := false
  description : Option String := none
  last_update : ℚ
  autoresolve_after : Option ℚ := none
  location : Option (Nat × Nat) := none
  deriving DecidableEq, Repr

/-- Source `Incident.advance_status` (models.py): advance along the lifecycle;
`step` overwrites `last_update` with the tick instant immediately after
calling it, so the model takes the instant as an argument. -/
def Incident.advance_status (inc : Incident) (now : ℚ) : Incident :=
  match inc.status with
  | .NEW => { inc with status := .ACKNOWLEDGED, acknowledged := true, last_update := now }
  | .ACKNOWLEDGED => { inc with status := .IN_PROGRESS, last_update := now }
  | .IN_PROGRESS => { inc with status := .RESOLVED, last_update := now }
  | .RESOLVED => { inc with last_update := now }

/-- Source `Incident.can_autoresolve` (models.py): elapsed time since
`last_update` has reached the deadline. -/
def Incident.can_autoresolve (inc : Incident) (now : ℚ) : Bool :=
  match inc.autoresolve_after with
  | none => false
  | some d => decide (d ≤ now - inc.last_update)

/-- Source `FeedConfig` (config.py), restricted to the fields the simulator reads. -/
structure FeedConfig where
  metrics_hz : ℚ := 10
  logs_per_sec : ℚ := 6
  incidents_per_min : ℚ := 8
  incident_autoresolve_sec : ℚ × ℚ := (30, 120)
  deriving DecidableEq, Repr

/-- The pydantic validators of `FeedConfig`: positive rates and an ordered
positive auto-resolve bound. -/
def FeedConfig.valid (c : FeedConfig) : Prop :=
  0 < c.metrics_hz ∧ 0 < c.logs_per_sec ∧ 0 < c.incidents_per_min ∧
    0 < c.incident_autoresolve_sec.1 ∧
    c.incident_autoresolve_sec.1 < c.incident_autoresolve_sec.2

instance (c : FeedConfig) : Decidable c.valid :=
  inferInstanceAs (Decidable (0 < c.metrics_hz ∧ 0 < c.logs_per_sec ∧
    0 < c.incidents_per_min ∧ 0 < c.incident_autoresolve_sec.1 ∧
    c.incident_autoresolve_sec.1 < c.incident_autoresolve_sec.2))

/-- Source `MapConfig` (config.py), restricted to the grid the simulator reads. -/
structure MapConfig where
  grid : Nat × Nat := (20, 12)
  deriving DecidableEq, Repr

/-- The pydantic validator of `MapConfig.grid`: both dimensions above 1. -/
def MapConfig.valid (m : MapConfig) : Prop :=
  1 < m.grid.1 ∧ 1 < m.grid.2

instance (m : MapConfig) : Decidable m.valid :=
  inferInstanceAs (Decidable (1 < m.grid.1 ∧ 1 < m.grid.2))

/-- Source `_REGIONS` (feeds.py). -/
def REGIONS : List String :=
  ["us-east", "us-west", "eu-central", "ap-south", "sa-east"]

/-- Source `_INCIDENT_TYPES` (feeds.py). -/
def INCIDENT_TYPES : List String :=
  ["network", "database", "compute", "storage", "security"]

/-- Source `f"A{n:04d}"`: the identifier for the `n`-th created incident. -/
def identifierFor (n : Nat) : String :=
  let s := toString n
  "A" ++ String.mk (List.replicate (4 - s.length) '0') ++ s

/-- Source `IncidentTracker` (feeds.py).  `heap` records every incident object ever
created (the dict values alias these cells); `activeIdx` is the dict's key
set as creation ordinals in insertion order; `counter` is the identifier
counter of the source. -/
structure IncidentTracker where
  heap : List Incident := []
  activeIdx : List Nat := []
  counter : Nat := 0
  deriving Repr

/-- Source `IncidentsFeed` (feeds.py): configuration, grid dimensions and the
tracker plus the shared `FeedState`. -/
structure IncidentsFeed where
  config : FeedConfig
  grid_width : Nat
  grid_height : Nat
  tracker : IncidentTracker
  state : FeedState

/-- Source `IncidentsFeed.__init__` as wired by `FeedsController`: fresh tracker,
grid from the map configuration, fresh `FeedState` from the seed. -/
def IncidentsFeed.make (cfg : FeedConfig) (mc : MapConfig) (seed : ℤ) : IncidentsFeed :=
  { config := cfg, grid_width := mc.grid.1, grid_height := mc.grid.2,
    tracker := {}, state := FeedState.make seed }

/-- Source `IncidentsFeed._make_incident` (feeds.py): draw the attributes in source
order, build the incident with status `NEW`, register it in the tracker. -/
def IncidentsFeed.make_incident (f : IncidentsFeed) (now : ℚ) : Incident × IncidentsFeed :=
  let identifier := identifierFor (f.tracker.counter + 1)
  let ps := Rng.integersBelow 0 severitiesList.length f.state.rng
  let severity := severitiesList.getD ps.1 .LOW
  let pc := Rng.choiceStr INCIDENT_TYPES ps.2
  let pr := Rng.choiceStr REGIONS pc.2
  let pa := Rng.uniformQ f.config.incident_autoresolve_sec.1
    f.config.incident_autoresolve_sec.2 pr.2
  let px := Rng.integersBelow 0 f.grid_width pa.2
  let py := Rng.integersBelow 0 f.grid_height px.2
  let inc : Incident :=
    { identifier := identifier, timestamp := now, category := pc.1,
      severity := severity, status := .NEW, region := pr.1,
      description := some (pc.1.capitalize ++ " anomaly detected"),
      last_update := now, autoresolve_after := some pa.1,
      location := some (px.1, py.1) }
  (inc, { f with
    tracker := { heap := f.tracker.heap ++ [inc],
                 activeIdx := f.tracker.activeIdx ++ [f.tracker.heap.length],
                 counter := f.tracker.counter + 1 },
    state := { f.state with rng := py.2 } })

/-- The arrival loop of `IncidentsFeed.step`: create `n` incidents and
return their heap positions (the object references appended to `emitted`)
in creation order. -/
def IncidentsFeed.makeIncidents : Nat → ℚ → IncidentsFeed → List Nat × IncidentsFeed
  | 0, _, f => ([], f)
  | n + 1, now, f =>
    let idx := f.tracker.heap.length
    let q := f.make_incident now
    let rest := IncidentsFeed.makeIncidents n now q.2
    (idx :: rest.1, rest.2)

/-- One iteration of the progression sweep of `IncidentsFeed.step` for the
tracked incident at heap position `idx`.  The accumulator carries the heap,
the generator and the list of emitted object references. -/
def processOne (now : ℚ) (acc : List Incident × Rng × List Nat) (idx : Nat) :
    List Incident × Rng × List Nat :=
  match acc.1[idx]? with
  | none => acc
  | some inc =>
    if inc.status = .RESOLVED then acc
    else if inc.can_autoresolve now then
      (acc.1.set idx { inc with status := .RESOLVED, last_update := now },
       acc.2.1, acc.2.2 ++ [idx])
    else
      let pr := acc.2.1.random
      if (inc.status = .NEW ∨ inc.status = .ACKNOWLEDGED) ∧ pr.1 < 3/10 then
        (acc.1.set idx (inc.advance_status now), pr.2, acc.2.2 ++ [idx])
      else if inc.status = .IN_PROGRESS ∧ pr.1 < 3/20 then
        (acc.1.set idx (inc.advance_status now), pr.2, acc.2.2 ++ [idx])
      else (acc.1, pr.2, acc.2.2)

/-- The arrival block of `IncidentsFeed.step`: draw the Poisson count with
mean `incidents_per_min / 60` and create that many incidents; returns the
emitted creation references and the feed after the arrivals. -/
def IncidentsFeed.afterArrivals (f : IncidentsFeed) (now : ℚ) : List Nat × IncidentsFeed :=
  let pe := Rng.poissonCount (f.config.incidents_per_min / 60) f.state.rng
  IncidentsFeed.makeIncidents pe.1 now { f with state := { f.state with rng := pe.2 } }

/-- The progression sweep of `IncidentsFeed.step`: fold `processOne` over
the snapshot `list(self.tracker.iter_active())` of the active set. -/
def IncidentsFeed.sweep (f2 : IncidentsFeed) (created : List Nat) (now : ℚ) :
    List Incident × Rng × List Nat :=
  f2.tracker.activeIdx.foldl (processOne now) (f2.tracker.heap, f2.state.rng, created)

/-- Source `IncidentTracker.purge` applied to the post-sweep heap: keep exactly the
dict entries whose incident is not `RESOLVED`. -/
def purgeActive (heap : List Incident) (active : List Nat) : List Nat :=
  active.filter (fun i =>
    match heap[i]? with
    | some inc => decide (inc.status ≠ .RESOLVED)
    | none => false)

/-- Source `IncidentsFeed.step` (feeds.py): Poisson arrivals, progression sweep
over a snapshot of the active set, purge, and the emitted list materialised
from the final object states (Python returns live references, so the caller
observes the end-of-tick field values). -/
def IncidentsFeed.step (f : IncidentsFeed) (now : ℚ) : List Incident × IncidentsFeed :=
  let ar := f.afterArrivals now
  let f2 := ar.2
  let res := f2.sweep ar.1 now
  (res.2.2.filterMap (fun i => res.1[i]?),
   { f2 with
     tracker := { heap := res.1, activeIdx := purgeActive res.1 f2.tracker.activeIdx,
                  counter := f2.tracker.counter },
     state := { f2.state with rng := res.2.1 } })

/-- Drive a feed through one `step()` call per entry of `ts` (the wall-clock
instants of the ticks), collecting the per-tick emitted lists. -/
def IncidentsFeed.runSteps : IncidentsFeed → List ℚ → List (List Incident) × IncidentsFeed
  | f, [] => ([], f)
  | f, t :: ts =>
    let s := f.step t
    let rest := IncidentsFeed.runSteps s.2 ts
    (s.1 :: rest.1, rest.2)

/-- Source `MetricSample` (models.py). -/
structure MetricSample where
  timestamp : ℚ
  cpu_percent : ℚ
  memory_percent : ℚ
  deriving DecidableEq, Repr

/-- Source `np.clip(x, lo, hi)` for `lo ≤ hi`. -/
def clipQ (x lo hi : ℚ) : ℚ :=
  min (max x lo) hi

/-- The mutable state of `MetricsFeed` (feeds.py): current cpu and memory
levels, with the construction/reset baselines as defaults. -/
structure MetricsFeed where
  cpu : ℚ := 55
  mem : ℚ := 48
  deriving DecidableEq, Repr

/-- Source `MetricsFeed.sample` (feeds.py): two-dimensional normal drift, an
exponential spike that occasionally adds a further perturbation, then clamp
cpu to `[1, 98]` and memory to `[5, 95]`. -/
def MetricsFeed.sample (m : MetricsFeed) (rng : Rng) (now : ℚ) :
    MetricSample × MetricsFeed × Rng :=
  let p1 := Rng.normalQ 0 2 rng
  let p2 := Rng.normalQ 0 2 p1.2
  let ps := Rng.exponentialQ 2 p2.2
  let d :=
    if 5 < ps.1 then
      let q1 := Rng.normalQ 10 5 ps.2
      let q2 := Rng.normalQ 10 5 q1.2
      (p1.1 + q1.1, p2.1 + q2.1, q2.2)
    else (p1.1, p2.1, ps.2)
  let cpu' := clipQ (m.cpu + d.1) 1 98
  let mem' := clipQ (m.mem + d.2.1) 5 95
  ({ timestamp := now, cpu_percent := cpu', memory_percent := mem' },
   { cpu := cpu', mem := mem' }, d.2.2)

/-- Projection of an emitted incident onto the fields named by the
determinism property: identifier, severity, category, region, location. -/
def traceView (ems : List (List Incident)) :
    List (List (String × IncidentSeverity × String × String × Option (Nat × Nat))) :=
  ems.map (fun em => em.map (fun e => (e.identifier, e.severity, e.category, e.region, e.location)))

/-- Ordinal rank of a status along the lifecycle `NEW → ACKNOWLEDGED →
IN_PROGRESS → RESOLVED`. -/
def statusRank : IncidentStatus → Nat
  | .NEW => 0
  | .ACKNOWLEDGED => 1
  | .IN_PROGRESS => 2
  | .RESOLVED => 3

/-- Concrete feed used by witnesses and counterexamples: empty tracker and
a draw stream that yields one Poisson arrival and then zero on every later
draw, so the progression roll 0 < 0.3 advances the newly created incident
within the very same tick. -/
def witnessFeedA : IncidentsFeed :=
  { config := {}, grid_width := 20, grid_height := 12, tracker := {},
    state := { seed := 0, rng := ⟨fun n => if n = 0 then 1 else 0, 0⟩ } }

/-- The end-of-tick state of the incident created (and advanced) by
`witnessFeedA.step 0`. -/
def witnessIncidentA : Incident :=
  { identifier := "A0001", timestamp := 0, category := "network",
    severity := .LOW, status := .ACKNOWLEDGED, region := "us-east",
    acknowledged := true, description := some "Network anomaly detected",
    last_update := 0, autoresolve_after := some 30, location := some (0, 0) }

/-- A `NEW` incident whose auto-resolve deadline (5 s) has elapsed at t = 11. -/
def witnessIncidentB : Incident :=
  { identifier := "A0001", timestamp := 0, category := "network",
    severity := .LOW, status := .NEW, region := "us-east",
    last_update := 0, autoresolve_after := some 5, location := some (0, 0) }

/-- Concrete feed tracking `witnessIncidentB`, with an all-zero draw stream. -/
def witnessFeedB : IncidentsFeed :=
  { config := {}, grid_width := 20, grid_height := 12,
    tracker := { heap := [witnessIncidentB], activeIdx := [0], counter := 1 },
    state := { seed := 0, rng := ⟨fun _ => 0, 0⟩ } }

/-! ### Basic facts about one sweep iteration -/

theorem processOne_none (now : ℚ) (acc : List Incident × Rng × List Nat) (idx : Nat)
    (hget : acc.1[idx]? = none) : processOne now acc idx = acc := by
  simp only [processOne, hget]

theorem processOne_resolved (now : ℚ) (acc : List Incident × Rng × List Nat) (idx : Nat)
    (inc : Incident) (hget : acc.1[idx]? = some inc) (hst : inc.status = .RESOLVED) :
    processOne now acc idx = acc := by
  simp only [processOne, hget, hst, if_pos]

theorem processOne_autoresolve (now : ℚ) (acc : List Incident × Rng × List Nat) (idx : Nat)
    (inc : Incident) (hget : acc.1[idx]? = some inc) (hst : inc.status ≠ .RESOLVED)
    (har : inc.can_autoresolve now = true) :
    processOne now acc idx =
      (acc.1.set idx { inc with status := .RESOLVED, last_update := now },
       acc.2.1, acc.2.2 ++ [idx]) := by
  simp only [processOne, hget, hst, har, if_neg, if_pos, ite_true, ite_false]

theorem processOne_no_autoresolve (now : ℚ) (acc : List Incident × Rng × List Nat) (idx : Nat)
    (inc : Incident) (hget : acc.1[idx]? = some inc) (hst : inc.status ≠ .RESOLVED)
    (har : inc.can_autoresolve now = false) :
    processOne now acc idx = (acc.1, (acc.2.1.random).2, acc.2.2) ∨
      processOne now acc idx =
        (acc.1.set idx (inc.advance_status now), (acc.2.1.random).2, acc.2.2 ++ [idx]) := by
  simp only [processOne, hget, hst, har, Bool.false_eq_true, if_false, ite_false]
  by_cases h1 : (inc.status = .NEW ∨ inc.status = .ACKNOWLEDGED) ∧ (acc.2.1.random).1 < 3/10
  · right; rw [if_pos h1]
  · rw [if_neg h1]
    by_cases h2 : inc.status = .IN_PROGRESS ∧ (acc.2.1.random).1 < 3/20
    · right; rw [if_pos h2]
    · left; rw [if_neg h2]

theorem processOne_length (now : ℚ) (acc : List Incident × Rng × List Nat) (idx : Nat) :
    (processOne now acc idx).1.length = acc.1.length := by
  cases hget : acc.1[idx]? with
  | none => rw [processOne_none now acc idx hget]
  | some inc =>
    by_cases hst : inc.status = .RESOLVED
    · rw [processOne_resolved now acc idx inc hget hst]
    · cases har : inc.can_autoresolve now with
      | true => rw [processOne_autoresolve now acc idx inc hget hst har]; exact List.length_set ..
      | false =>
        rcases processOne_no_autoresolve now acc idx inc hget hst har with h | h <;> rw [h]
        exact List.length_set ..

theorem processOne_getElem?_ne (now : ℚ) (acc : List Incident × Rng × List Nat)
    (idx j : Nat) (hne : idx ≠ j) : (processOne now acc idx).1[j]? = acc.1[j]? := by
  cases hget : acc.1[idx]? with
  | none => rw [processOne_none now acc idx hget]
  | some inc =>
    by_cases hst : inc.status = .RESOLVED
    · rw [processOne_resolved now acc idx inc hget hst]
    · cases har : inc.can_autoresolve now with
      | true =>
        rw [processOne_autoresolve now acc idx inc hget hst har]
        exact List.getElem?_set_ne hne
      | false =>
        rcases processOne_no_autoresolve now acc idx inc hget hst har with h | h <;> rw [h]
        exact List.getElem?_set_ne hne

theorem processOne_em_mono (now : ℚ) (acc : List Incident × Rng × List Nat)
    (idx x : Nat) (hx : x ∈ acc.2.2) : x ∈ (processOne now acc idx).2.2 := by
  cases hget : acc.1[idx]? with
  | none => rw [processOne_none now acc idx hget]; exact hx
  | some inc =>
    by_cases hst : inc.status = .RESOLVED
    · rw [processOne_resolved now acc idx inc hget hst]; exact hx
    · cases har : inc.can_autoresolve now with
      | true =>
        rw [processOne_autoresolve now acc idx inc hget hst har]
        exact List.mem_append_left _ hx
      | false =>
        rcases processOne_no_autoresolve now acc idx inc hget hst har with h | h <;> rw [h]
        · exact hx
        · exact List.mem_append_left _ hx

/-! ### Facts about the whole progression sweep (the fold) -/

theorem foldl_processOne_length (now : ℚ) (l : List Nat)
    (acc : List Incident × Rng × List Nat) :
    (l.foldl (processOne now) acc).1.length = acc.1.length := by
  induction l generalizing acc with
  | nil => rfl
  | cons a l ih => rw [List.foldl_cons, ih, processOne_length]

theorem foldl_processOne_not_mem (now : ℚ) (l : List Nat)
    (acc : List Incident × Rng × List Nat) (j : Nat) (hj : j ∉ l) :
    (l.foldl (processOne now) acc).1[j]? = acc.1[j]? := by
  induction l generalizing acc with
  | nil => rfl
  | cons a l ih =>
    rw [List.foldl_cons, ih _ (fun h => hj (List.mem_cons_of_mem a h)),
      processOne_getElem?_ne now acc a j (fun h => hj (h ▸ List.mem_cons_self a l))]

theorem foldl_processOne_em_mono (now : ℚ) (l : List Nat)
    (acc : List Incident × Rng × List Nat) (x : Nat) (hx : x ∈ acc.2.2) :
    x ∈ (l.foldl (processOne now) acc).2.2 := by
  induction l generalizing acc with
  | nil => exact hx
  | cons a l ih => exact ih _ (processOne_em_mono now acc a x hx)

/-- A single sweep iteration transforms every heap cell along `R`, provided
`R` is reflexive and contains the advance and forced-resolve transforms. -/
theorem processOne_rel (R : Incident → Incident → Prop) (now : ℚ)
    (hrefl : ∀ a, R a a)
    (hadv : ∀ a, R a (a.advance_status now))
    (hres : ∀ a, R a { a with status := .RESOLVED, last_update := now })
    (acc : List Incident × Rng × List Nat) (idx j : Nat) (inc : Incident)
    (hget : acc.1[j]? = some inc) :
    ∃ inc', (processOne now acc idx).1[j]? = some inc' ∧ R inc inc' := by
  by_cases hne : idx = j
  · subst hne
    cases hget2 : acc.1[idx]? with
    | none => rw [hget2] at hget; cases hget
    | some inc2 =>
      rw [hget2] at hget; cases hget
      have hlt : idx < acc.1.length := by
        obtain ⟨h', -⟩ := List.getElem?_eq_some.mp hget2; exact h'
      by_cases hst : inc.status = .RESOLVED
      · rw [processOne_resolved now acc idx inc hget2 hst]
        exact ⟨inc, hget2, hrefl inc⟩
      · cases har : inc.can_autoresolve now with
        | true =>
          rw [processOne_autoresolve now acc idx inc hget2 hst har]
          exact ⟨_, List.getElem?_set_eq_of_lt _ hlt, hres inc⟩
        | false =>
          rcases processOne_no_autoresolve now acc idx inc hget2 hst har with h | h <;> rw [h]
          · exact ⟨inc, hget2, hrefl inc⟩
          · exact ⟨_, List.getElem?_set_eq_of_lt _ hlt, hadv inc⟩
  · rw [processOne_getElem?_ne now acc idx j hne]
    exact ⟨inc, hget, hrefl inc⟩

/-- The whole sweep transforms every heap cell along a reflexive transitive
relation containing the advance and forced-resolve transforms. -/
theorem foldl_processOne_rel (R : Incident → Incident → Prop) (now : ℚ)
    (hrefl : ∀ a, R a a)
    (htrans : ∀ a b c, R a b → R b c → R a c)
    (hadv : ∀ a, R a (a.advance_status now))
    (hres : ∀ a, R a { a with status := .RESOLVED, last_update := now })
    (l : List Nat) (acc : List Incident × Rng × List Nat) (j : Nat) (inc : Incident)
    (hget : acc.1[j]? = some inc) :
    ∃ inc', (l.foldl (processOne now) acc).1[j]? = some inc' ∧ R inc inc' := by
  induction l generalizing acc inc with
  | nil => exact ⟨inc, hget, hrefl inc⟩
  | cons a l ih =>
    obtain ⟨mid, hmid, hR1⟩ := processOne_rel R now hrefl hadv hres acc a j inc hget
    obtain ⟨fin, hfin, hR2⟩ := ih (processOne now acc a) mid hmid
    exact ⟨fin, hfin, htrans _ _ _ hR1 hR2⟩

/-! ### Facts about incident creation -/

theorem make_incident_heap (f : IncidentsFeed) (now : ℚ) :
    (f.make_incident now).2.tracker.heap = f.tracker.heap ++ [(f.make_incident now).1] := rfl

theorem make_incident_active (f : IncidentsFeed) (now : ℚ) :
    (f.make_incident now).2.tracker.activeIdx
      = f.tracker.activeIdx ++ [f.tracker.heap.length] := rfl

theorem make_incident_counter (f : IncidentsFeed) (now : ℚ) :
    (f.make_incident now).2.tracker.counter = f.tracker.counter + 1 := rfl

theorem make_incident_frame (f : IncidentsFeed) (now : ℚ) :
    (f.make_incident now).2.config = f.config ∧
      (f.make_incident now).2.grid_width = f.grid_width ∧
      (f.make_incident now).2.grid_height = f.grid_height :=
  ⟨rfl, rfl, rfl⟩

theorem make_incident_status (f : IncidentsFeed) (now : ℚ) :
    (f.make_incident now).1.status = .NEW := rfl

theorem make_incident_acknowledged (f : IncidentsFeed) (now : ℚ) :
    (f.make_incident now).1.acknowledged = false := rfl

theorem make_incident_identifier (f : IncidentsFeed) (now : ℚ) :
    (f.make_incident now).1.identifier = identifierFor (f.tracker.counter + 1) := rfl

theorem make_incident_location (f : IncidentsFeed) (now : ℚ)
    (hw : 0 < f.grid_width) (hh : 0 < f.grid_height) :
    ∃ x y, (f.make_incident now).1.location = some (x, y) ∧
      x < f.grid_width ∧ y < f.grid_height := by
  refine ⟨_, _, rfl, ?_, ?_⟩
  · show (Rng.integersBelow 0 f.grid_width _).1 < f.grid_width
    simp only [Rng.integersBelow, Nat.zero_add]
    exact Nat.mod_lt _ hw
  · show (Rng.integersBelow 0 f.grid_height _).1 < f.grid_height
    simp only [Rng.integersBelow, Nat.zero_add]
    exact Nat.mod_lt _ hh

theorem makeIncidents_spec (now : ℚ) (n : Nat) (f : IncidentsFeed) :
    (IncidentsFeed.makeIncidents n now f).2.tracker.heap.length = f.tracker.heap.length + n ∧
    (IncidentsFeed.makeIncidents n now f).1 = List.range' f.tracker.heap.length n ∧
    (IncidentsFeed.makeIncidents n now f).2.tracker.activeIdx
      = f.tracker.activeIdx ++ (IncidentsFeed.makeIncidents n now f).1 ∧
    (IncidentsFeed.makeIncidents n now f).2.tracker.counter = f.tracker.counter + n ∧
    (IncidentsFeed.makeIncidents n now f).2.config = f.config ∧
    (IncidentsFeed.makeIncidents n now f).2.grid_width = f.grid_width ∧
    (IncidentsFeed.makeIncidents n now f).2.grid_height = f.grid_height ∧
    (∀ j, j < f.tracker.heap.length →
      (IncidentsFeed.makeIncidents n now f).2.tracker.heap[j]? = f.tracker.heap[j]?) := by
  induction n generalizing f with
  | zero =>
    refine ⟨rfl, rfl, (List.append_nil _).symm, rfl, rfl, rfl, rfl, fun j _ => rfl⟩
  | succ n ih =>
    obtain ⟨ihlen, ihcr, ihact, ihcnt, ihcfg, ihgw, ihgh, ihold⟩ := ih (f.make_incident now).2
    have hq : IncidentsFeed.makeIncidents (n + 1) now f =
        (f.tracker.heap.length :: (IncidentsFeed.makeIncidents n now (f.make_incident now).2).1,
         (IncidentsFeed.makeIncidents n now (f.make_incident now).2).2) := rfl
    have hlen1 : (f.make_incident now).2.tracker.heap.length = f.tracker.heap.length + 1 := by
      rw [make_incident_heap, List.length_append, List.length_cons, List.length_nil]
    refine ⟨?_, ?_, ?_, ?_, ?_, ?_, ?_, ?_⟩
    · rw [hq, ihlen, hlen1]; omega
    · rw [hq, ihcr, hlen1, List.range'_succ]
    · rw [hq, ihact, make_incident_active, ihcr, hlen1, List.append_assoc]
      rfl
    · rw [hq, ihcnt, make_incident_counter]; omega
    · rw [hq, ihcfg]; exact (make_incident_frame f now).1
    · rw [hq, ihgw]; exact (make_incident_frame f now).2.1
    · rw [hq, ihgh]; exact (make_incident_frame f now).2.2
    · intro j hj
      rw [hq, ihold j (by omega), make_incident_heap]
      exact List.getElem?_append_left hj

/-! ### Decomposition of `step` into its stages -/

theorem step_heap_eq (f : IncidentsFeed) (now : ℚ) :
    (f.step now).2.tracker.heap
      = ((f.afterArrivals now).2.sweep (f.afterArrivals now).1 now).1 := rfl

theorem step_active_eq (f : IncidentsFeed) (now : ℚ) :
    (f.step now).2.tracker.activeIdx
      = purgeActive ((f.afterArrivals now).2.sweep (f.afterArrivals now).1 now).1
          (f.afterArrivals now).2.tracker.activeIdx := rfl

theorem step_emitted_eq (f : IncidentsFeed) (now : ℚ) :
    (f.step now).1
      = ((f.afterArrivals now).2.sweep (f.afterArrivals now).1 now).2.2.filterMap
          (fun i => ((f.afterArrivals now).2.sweep (f.afterArrivals now).1 now).1[i]?) := rfl

theorem purgeActive_mem (heap : List Incident) (active : List Nat) (i : Nat)
    (hi : i ∈ purgeActive heap active) :
    ∃ inc, heap[i]? = some inc ∧ inc.status ≠ .RESOLVED := by
  unfold purgeActive at hi
  obtain ⟨-, hp⟩ := List.mem_filter.mp hi
  cases hh : heap[i]? with
  | none => simp [hh] at hp
  | some inc =>
    simp only [hh] at hp
    exact ⟨inc, rfl, of_decide_eq_true hp⟩

theorem afterArrivals_spec (f : IncidentsFeed) (now : ℚ) :
    ∃ n : Nat,
      (f.afterArrivals now).1 = List.range' f.tracker.heap.length n ∧
      (f.afterArrivals now).2.tracker.heap.length = f.tracker.heap.length + n ∧
      (f.afterArrivals now).2.tracker.activeIdx
        = f.tracker.activeIdx ++ (f.afterArrivals now).1 ∧
      (f.afterArrivals now).2.tracker.counter = f.tracker.counter + n ∧
      (f.afterArrivals now).2.config = f.config ∧
      (f.afterArrivals now).2.grid_width = f.grid_width ∧
      (f.afterArrivals now).2.grid_height = f.grid_height ∧
      (∀ j, j < f.tracker.heap.length →
        (f.afterArrivals now).2.tracker.heap[j]? = f.tracker.heap[j]?) := by
  obtain ⟨h1, h2, h3, h4, h5, h6, h7, h8⟩ :=
    makeIncidents_spec now (Rng.poissonCount (f.config.incidents_per_min / 60) f.state.rng).1
      { f with state := { f.state with rng :=
          (Rng.poissonCount (f.config.incidents_per_min / 60) f.state.rng).2 } }
  exact ⟨_, h2, h1, h3, h4, h5, h6, h7, h8⟩

/-- Core persistence lemma: a tracked, non-resolved incident whose deadline
has elapsed ends the tick forced to `RESOLVED` in the heap, and that final
object state is in the emitted list. -/
theorem step_autoresolve_core (f : IncidentsFeed) (now : ℚ) (i : Nat) (inc : Incident)
    (hnd : f.tracker.activeIdx.Nodup)
    (hmem : i ∈ f.tracker.activeIdx)
    (hget : f.tracker.heap[i]? = some inc)
    (hst : inc.status ≠ .RESOLVED)
    (har : inc.can_autoresolve now = true) :
    (f.step now).2.tracker.heap[i]? = some { inc with status := .RESOLVED, last_update := now } ∧
      ({ inc with status := .RESOLVED, last_update := now }) ∈ (f.step now).1 := by
  obtain ⟨n, hcr, hlen, hact, -, -, -, -, hold⟩ := afterArrivals_spec f now
  have hi_lt : i < f.tracker.heap.length := (List.getElem?_eq_some.mp hget).1
  have hget2 : (f.afterArrivals now).2.tracker.heap[i]? = some inc := by
    rw [hold i hi_lt]; exact hget
  obtain ⟨l1, l2, hsplit⟩ := List.append_of_mem hmem
  have hnotl : i ∉ l1 ∧ i ∉ l2 := by
    rw [hsplit, List.nodup_append] at hnd
    obtain ⟨-, h2, h3⟩ := hnd
    exact ⟨fun hs => h3 hs (List.mem_cons_self i l2), (List.nodup_cons.mp h2).1⟩
  have hicr : i ∉ (f.afterArrivals now).1 := by
    rw [hcr]
    intro hic
    have := (List.mem_range'_1.mp hic).1
    omega
  have hsnap : (f.afterArrivals now).2.tracker.activeIdx
      = l1 ++ i :: (l2 ++ (f.afterArrivals now).1) := by
    rw [hact, hsplit, List.append_assoc]
    rfl
  -- run the sweep in three stages around the iteration at `i`
  have hsweep : (f.afterArrivals now).2.sweep (f.afterArrivals now).1 now
      = (l2 ++ (f.afterArrivals now).1).foldl (processOne now)
          (processOne now
            (l1.foldl (processOne now)
              ((f.afterArrivals now).2.tracker.heap, (f.afterArrivals now).2.state.rng,
                (f.afterArrivals now).1)) i) := by
    rw [IncidentsFeed.sweep, hsnap, List.foldl_append, List.foldl_cons]
  set acc0 : List Incident × Rng × List Nat :=
    ((f.afterArrivals now).2.tracker.heap, (f.afterArrivals now).2.state.rng,
      (f.afterArrivals now).1) with hacc0
  have hacc1get : (l1.foldl (processOne now) acc0).1[i]? = some inc := by
    rw [foldl_processOne_not_mem now l1 acc0 i hnotl.1]
    exact hget2
  have hmid : processOne now (l1.foldl (processOne now) acc0) i
      = ((l1.foldl (processOne now) acc0).1.set i
          { inc with status := .RESOLVED, last_update := now },
         (l1.foldl (processOne now) acc0).2.1,
         (l1.foldl (processOne now) acc0).2.2 ++ [i]) :=
    processOne_autoresolve now _ i inc hacc1get hst har
  have hi_lt1 : i < (l1.foldl (processOne now) acc0).1.length :=
    (List.getElem?_eq_some.mp hacc1get).1
  have htail : i ∉ l2 ++ (f.afterArrivals now).1 := by
    intro hc
    rcases List.mem_append.mp hc with h | h
    · exact hnotl.2 h
    · exact hicr h
  have hfin_get : ((f.afterArrivals now).2.sweep (f.afterArrivals now).1 now).1[i]?
      = some { inc with status := .RESOLVED, last_update := now } := by
    rw [hsweep, foldl_processOne_not_mem now _ _ i htail, hmid]
    exact List.getElem?_set_eq_of_lt _ hi_lt1
  have hfin_em : i ∈ ((f.afterArrivals now).2.sweep (f.afterArrivals now).1 now).2.2 := by
    rw [hsweep]
    refine foldl_processOne_em_mono now _ _ i ?_
    rw [hmid]
    exact List.mem_append_right _ (List.mem_singleton.mpr rfl)
  constructor
  · rw [step_heap_eq]; exact hfin_get
  · rw [step_emitted_eq]
    exact List.mem_filterMap.mpr ⟨i, hfin_em, hfin_get⟩

/-! ### Rank facts and further step-level lemmas -/

theorem statusRank_le_three (s : IncidentStatus) : statusRank s ≤ 3 := by
  cases s <;> simp [statusRank]

theorem advance_status_rank (j : Incident) (t : ℚ) :
    statusRank j.status ≤ statusRank (j.advance_status t).status ∧
      statusRank (j.advance_status t).status ≤ statusRank j.status + 1 := by
  cases hs : j.status <;> simp [Incident.advance_status, hs, statusRank]

theorem advance_status_frame (j : Incident) (t : ℚ) :
    (j.advance_status t).identifier = j.identifier ∧
      (j.advance_status t).severity = j.severity ∧
      (j.advance_status t).category = j.category ∧
      (j.advance_status t).region = j.region ∧
      (j.advance_status t).description = j.description ∧
      (j.advance_status t).autoresolve_after = j.autoresolve_after ∧
      (j.advance_status t).location = j.location ∧
      (j.advance_status t).timestamp = j.timestamp := by
  cases hs : j.status <;> simp [Incident.advance_status, hs]

theorem step_frame (f : IncidentsFeed) (now : ℚ) :
    (f.step now).2.config = f.config ∧ (f.step now).2.grid_width = f.grid_width ∧
      (f.step now).2.grid_height = f.grid_height := by
  obtain ⟨n, -, -, -, -, hcfg, hgw, hgh, -⟩ := afterArrivals_spec f now
  exact ⟨hcfg, hgw, hgh⟩

/-- Characterization of what one `step` call does to a tracked heap cell:
either nothing, a single `advance_status` (only when the deadline has not
elapsed), or the forced resolve (only when it has). -/
theorem step_char (f : IncidentsFeed) (now : ℚ) (i : Nat) (inc : Incident)
    (hnd : f.tracker.activeIdx.Nodup)
    (hmem : i ∈ f.tracker.activeIdx)
    (hget : f.tracker.heap[i]? = some inc) :
    ∃ inc', (f.step now).2.tracker.heap[i]? = some inc' ∧
      (inc' = inc ∨
       (inc' = inc.advance_status now ∧ inc.status ≠ .RESOLVED ∧
         inc.can_autoresolve now = false) ∨
       (inc' = { inc with status := .RESOLVED, last_update := now } ∧
         inc.status ≠ .RESOLVED ∧ inc.can_autoresolve now = true)) := by
  obtain ⟨n, hcr, hlen, hact, -, -, -, -, hold⟩ := afterArrivals_spec f now
  have hi_lt : i < f.tracker.heap.length := (List.getElem?_eq_some.mp hget).1
  have hget2 : (f.afterArrivals now).2.tracker.heap[i]? = some inc := by
    rw [hold i hi_lt]; exact hget
  obtain ⟨l1, l2, hsplit⟩ := List.append_of_mem hmem
  have hnotl : i ∉ l1 ∧ i ∉ l2 := by
    rw [hsplit, List.nodup_append] at hnd
    obtain ⟨-, h2, h3⟩ := hnd
    exact ⟨fun hs => h3 hs (List.mem_cons_self i l2), (List.nodup_cons.mp h2).1⟩
  have hicr : i ∉ (f.afterArrivals now).1 := by
    rw [hcr]
    intro hic
    have := (List.mem_range'_1.mp hic).1
    omega
  have hsnap : (f.afterArrivals now).2.tracker.activeIdx
      = l1 ++ i :: (l2 ++ (f.afterArrivals now).1) := by
    rw [hact, hsplit, List.append_assoc]
    rfl
  have hsweep : (f.afterArrivals now).2.sweep (f.afterArrivals now).1 now
      = (l2 ++ (f.afterArrivals now).1).foldl (processOne now)
          (processOne now
            (l1.foldl (processOne now)
              ((f.afterArrivals now).2.tracker.heap, (f.afterArrivals now).2.state.rng,
                (f.afterArrivals now).1)) i) := by
    rw [IncidentsFeed.sweep, hsnap, List.foldl_append, List.foldl_cons]
  set acc0 : List Incident × Rng × List Nat :=
    ((f.afterArrivals now).2.tracker.heap, (f.afterArrivals now).2.state.rng,
      (f.afterArrivals now).1) with hacc0
  have hacc1get : (l1.foldl (processOne now) acc0).1[i]? = some inc := by
    rw [foldl_processOne_not_mem now l1 acc0 i hnotl.1]
    exact hget2
  have hi_lt1 : i < (l1.foldl (processOne now) acc0).1.length :=
    (List.getElem?_eq_some.mp hacc1get).1
  have htail : i ∉ l2 ++ (f.afterArrivals now).1 := by
    intro hc
    rcases List.mem_append.mp hc with h | h
    · exact hnotl.2 h
    · exact hicr h
  have hrw : ∀ acc2 : List Incident × Rng × List Nat,
      processOne now (l1.foldl (processOne now) acc0) i = acc2 →
      ((f.afterArrivals now).2.sweep (f.afterArrivals now).1 now).1[i]? = acc2.1[i]? := by
    intro acc2 h2
    rw [hsweep, h2, foldl_processOne_not_mem now _ _ i htail]
  rw [step_heap_eq]
  by_cases hst : inc.status = .RESOLVED
  · have := hrw _ (processOne_resolved now _ i inc hacc1get hst)
    rw [this]
    exact ⟨inc, hacc1get, Or.inl rfl⟩
  · cases har : inc.can_autoresolve now with
    | true =>
      have := hrw _ (processOne_autoresolve now _ i inc hacc1get hst har)
      rw [this]
      exact ⟨_, List.getElem?_set_eq_of_lt _ hi_lt1, Or.inr (Or.inr ⟨rfl, hst, rfl⟩)⟩
    | false =>
      rcases processOne_no_autoresolve now _ i inc hacc1get hst har with h | h
      · rw [hrw _ h]
        exact ⟨inc, hacc1get, Or.inl rfl⟩
      · rw [hrw _ h]
        exact ⟨_, List.getElem?_set_eq_of_lt _ hi_lt1, Or.inr (Or.inl ⟨rfl, hst, rfl⟩)⟩

/-- A heap cell that is not in the active snapshot is untouched by `step`. -/
theorem step_untracked (f : IncidentsFeed) (now : ℚ) (i : Nat) (inc : Incident)
    (hmem : i ∉ f.tracker.activeIdx)
    (hget : f.tracker.heap[i]? = some inc) :
    (f.step now).2.tracker.heap[i]? = some inc := by
  obtain ⟨n, hcr, hlen, hact, -, -, -, -, hold⟩ := afterArrivals_spec f now
  have hi_lt : i < f.tracker.heap.length := (List.getElem?_eq_some.mp hget).1
  have hget2 : (f.afterArrivals now).2.tracker.heap[i]? = some inc := by
    rw [hold i hi_lt]; exact hget
  have hicr : i ∉ (f.afterArrivals now).1 := by
    rw [hcr]
    intro hic
    have := (List.mem_range'_1.mp hic).1
    omega
  have hsnap : i ∉ (f.afterArrivals now).2.tracker.activeIdx := by
    rw [hact]
    intro hc
    rcases List.mem_append.mp hc with h | h
    · exact hmem h
    · exact hicr h
  rw [step_heap_eq, IncidentsFeed.sweep, foldl_processOne_not_mem now _ _ i hsnap]
  exact hget2

/-- Every heap cell survives a `step` with its rank not decreased, its
identifier and its location unchanged. -/
theorem step_cell_mono (f : IncidentsFeed) (now : ℚ) (i : Nat) (inc : Incident)
    (hget : f.tracker.heap[i]? = some inc) :
    ∃ inc', (f.step now).2.tracker.heap[i]? = some inc' ∧
      statusRank inc.status ≤ statusRank inc'.status ∧
      inc'.identifier = inc.identifier ∧ inc'.location = inc.location := by
  obtain ⟨n, -, -, -, -, -, -, -, hold⟩ := afterArrivals_spec f now
  have hi_lt : i < f.tracker.heap.length := (List.getElem?_eq_some.mp hget).1
  have hget2 : (f.afterArrivals now).2.tracker.heap[i]? = some inc := by
    rw [hold i hi_lt]; exact hget
  have hadv : ∀ a : Incident, statusRank a.status ≤ statusRank (a.advance_status now).status ∧
      (a.advance_status now).identifier = a.identifier ∧
      (a.advance_status now).location = a.location :=
    fun a => ⟨(advance_status_rank a now).1, (advance_status_frame a now).1,
      (advance_status_frame a now).2.2.2.2.2.2.1⟩
  have hres : ∀ a : Incident,
      statusRank a.status ≤ statusRank (Incident.status { a with status := .RESOLVED, last_update := now }) ∧
      Incident.identifier { a with status := .RESOLVED, last_update := now } = a.identifier ∧
      Incident.location { a with status := .RESOLVED, last_update := now } = a.location :=
    fun a => ⟨statusRank_le_three a.status, rfl, rfl⟩
  have := foldl_processOne_rel
    (fun a b => statusRank a.status ≤ statusRank b.status ∧
      b.identifier = a.identifier ∧ b.location = a.location) now
    (fun a => ⟨le_refl _, rfl, rfl⟩)
    (fun a b c h1 h2 => ⟨le_trans h1.1 h2.1, h2.2.1.trans h1.2.1, h2.2.2.trans h1.2.2⟩)
    hadv hres
    (f.afterArrivals now).2.tracker.activeIdx
    ((f.afterArrivals now).2.tracker.heap, (f.afterArrivals now).2.state.rng,
      (f.afterArrivals now).1) i inc hget2
  obtain ⟨inc', hfin, hrel⟩ := this
  refine ⟨inc', ?_, hrel.1, hrel.2.1, hrel.2.2⟩
  rw [step_heap_eq]
  exact hfin

/-! ### Identifier bookkeeping (for the monotonic-identifier claim) -/

theorem heap_map_identifier_preserved (now : ℚ) (l : List Nat)
    (acc : List Incident × Rng × List Nat) :
    (l.foldl (processOne now) acc).1.map Incident.identifier
      = acc.1.map Incident.identifier := by
  apply List.ext_getElem?
  intro k
  rw [List.getElem?_map, List.getElem?_map]
  cases hk : acc.1[k]? with
  | none =>
    have hnone : (l.foldl (processOne now) acc).1[k]? = none := by
      rw [List.getElem?_eq_none_iff, foldl_processOne_length]
      exact List.getElem?_eq_none_iff.mp hk
    rw [hnone]
  | some a =>
    obtain ⟨b, hb, hrel⟩ := foldl_processOne_rel (fun a b => b.identifier = a.identifier) now
      (fun _ => rfl) (fun _ _ _ h1 h2 => h2.trans h1)
      (fun a => (advance_status_frame a now).1) (fun _ => rfl) l acc k a hk
    rw [hb, Option.map_some', Option.map_some', hrel]

theorem makeIncidents_ids (now : ℚ) (n : Nat) (f : IncidentsFeed)
    (hcnt : f.tracker.counter = f.tracker.heap.length)
    (hids : f.tracker.heap.map Incident.identifier
      = (List.range f.tracker.heap.length).map (fun k => identifierFor (k + 1))) :
    (IncidentsFeed.makeIncidents n now f).2.tracker.counter
      = (IncidentsFeed.makeIncidents n now f).2.tracker.heap.length ∧
    (IncidentsFeed.makeIncidents n now f).2.tracker.heap.map Incident.identifier
      = (List.range (IncidentsFeed.makeIncidents n now f).2.tracker.heap.length).map
          (fun k => identifierFor (k + 1)) := by
  induction n generalizing f with
  | zero => exact ⟨hcnt, hids⟩
  | succ n ih =>
    have h2 : (IncidentsFeed.makeIncidents (n + 1) now f).2
        = (IncidentsFeed.makeIncidents n now (f.make_incident now).2).2 := rfl
    rw [h2]
    have hlen1 : (f.make_incident now).2.tracker.heap.length = f.tracker.heap.length + 1 := by
      rw [make_incident_heap, List.length_append, List.length_cons, List.length_nil]
    apply ih
    · rw [make_incident_counter, hlen1, hcnt]
    · rw [make_incident_heap, List.map_append, hids, List.length_append]
      have hone : [(f.make_incident now).1].map Incident.identifier
          = [identifierFor (f.tracker.heap.length + 1)] := by
        rw [List.map_cons, List.map_nil, make_incident_identifier, hcnt]
      rw [hone]
      have : f.tracker.heap.length + [(f.make_incident now).1].length
          = f.tracker.heap.length + 1 := rfl
      rw [this, List.range_succ, List.map_append, List.map_cons, List.map_nil]

theorem step_ids (f : IncidentsFeed) (now : ℚ)
    (hcnt : f.tracker.counter = f.tracker.heap.length)
    (hids : f.tracker.heap.map Incident.identifier
      = (List.range f.tracker.heap.length).map (fun k => identifierFor (k + 1))) :
    (f.step now).2.tracker.counter = (f.step now).2.tracker.heap.length ∧
    (f.step now).2.tracker.heap.map Incident.identifier
      = (List.range (f.step now).2.tracker.heap.length).map (fun k => identifierFor (k + 1)) := by
  have hf2 := makeIncidents_ids now
    (Rng.poissonCount (f.config.incidents_per_min / 60) f.state.rng).1
    { f with state := { f.state with rng :=
        (Rng.poissonCount (f.config.incidents_per_min / 60) f.state.rng).2 } }
    hcnt hids
  have hcnt2 : (f.step now).2.tracker.counter = (f.afterArrivals now).2.tracker.counter := rfl
  have hlen2 : (f.step now).2.tracker.heap.length
      = (f.afterArrivals now).2.tracker.heap.length := by
    rw [step_heap_eq, IncidentsFeed.sweep, foldl_processOne_length]
  have hmap2 : (f.step now).2.tracker.heap.map Incident.identifier
      = (f.afterArrivals now).2.tracker.heap.map Incident.identifier := by
    rw [step_heap_eq, IncidentsFeed.sweep, heap_map_identifier_preserved]
  exact ⟨by rw [hcnt2, hlen2]; exact hf2.1, by rw [hmap2, hlen2]; exact hf2.2⟩

theorem ids_pointwise (heap : List Incident)
    (hids : heap.map Incident.identifier
      = (List.range heap.length).map (fun k => identifierFor (k + 1)))
    (i : Nat) (inc : Incident) (hget : heap[i]? = some inc) :
    inc.identifier = identifierFor (i + 1) := by
  have hi_lt : i < heap.length := (List.getElem?_eq_some.mp hget).1
  have h1 : (heap.map Incident.identifier)[i]? = some inc.identifier := by
    rw [List.getElem?_map, hget, Option.map_some']
  rw [hids, List.getElem?_map] at h1
  have h2 : (List.range heap.length)[i]? = some i := by
    rw [List.getElem?_eq_getElem (by simpa using hi_lt)]
    simp
  rw [h2, Option.map_some'] at h1
  exact (Option.some.injEq _ _ ▸ h1).symm

/-! ### Location bookkeeping (for the grid-containment claim) -/

theorem makeIncidents_loc (now : ℚ) (n : Nat) (W H : Nat) (f : IncidentsFeed)
    (hW : f.grid_width = W) (hH : f.grid_height = H) (hw : 0 < W) (hh : 0 < H)
    (hprev : ∀ inc ∈ f.tracker.heap, ∃ x y, inc.location = some (x, y) ∧ x < W ∧ y < H) :
    ∀ inc ∈ (IncidentsFeed.makeIncidents n now f).2.tracker.heap,
      ∃ x y, inc.location = some (x, y) ∧ x < W ∧ y < H := by
  induction n generalizing f with
  | zero => exact hprev
  | succ n ih =>
    have h2 : (IncidentsFeed.makeIncidents (n + 1) now f).2
        = (IncidentsFeed.makeIncidents n now (f.make_incident now).2).2 := rfl
    rw [h2]
    apply ih
    · rw [(make_incident_frame f now).2.1, hW]
    · rw [(make_incident_frame f now).2.2, hH]
    · intro inc hinc
      rw [make_incident_heap] at hinc
      rcases List.mem_append.mp hinc with h | h
      · exact hprev inc h
      · have heq : inc = (f.make_incident now).1 := List.mem_singleton.mp h
        obtain ⟨x, y, hl, hx, hy⟩ := make_incident_location f now (hW ▸ hw) (hH ▸ hh)
        exact ⟨x, y, heq ▸ hl, hW ▸ hx, hH ▸ hy⟩

theorem sweep_loc (now : ℚ) (l : List Nat) (acc : List Incident × Rng × List Nat)
    (W H : Nat)
    (hprev : ∀ inc ∈ acc.1, ∃ x y, inc.location = some (x, y) ∧ x < W ∧ y < H) :
    ∀ inc ∈ (l.foldl (processOne now) acc).1,
      ∃ x y, inc.location = some (x, y) ∧ x < W ∧ y < H := by
  intro inc hinc
  obtain ⟨j, hj_lt, hj⟩ := List.mem_iff_getElem.mp hinc
  have hj_lt0 : j < acc.1.length := by
    rw [← foldl_processOne_length now l acc]; exact hj_lt
  obtain ⟨b, hb, hrel⟩ := foldl_processOne_rel (fun a b => b.location = a.location) now
    (fun _ => rfl) (fun _ _ _ h1 h2 => h2.trans h1)
    (fun a => (advance_status_frame a now).2.2.2.2.2.2.1) (fun _ => rfl)
    l acc j _ (List.getElem?_eq_getElem hj_lt0)
  have hbi : (l.foldl (processOne now) acc).1[j]? = some inc := by
    rw [List.getElem?_eq_getElem hj_lt, hj]
  have hb2 : b = inc := by
    rw [hb] at hbi
    exact Option.some_inj.mp hbi
  obtain ⟨x, y, hl, hx, hy⟩ := hprev _ (List.getElem_mem hj_lt0)
  exact ⟨x, y, by rw [← hb2, hrel]; exact hl, hx, hy⟩

theorem step_loc (f : IncidentsFeed) (now : ℚ)
    (hw : 0 < f.grid_width) (hh : 0 < f.grid_height)
    (hprev : ∀ inc ∈ f.tracker.heap, ∃ x y, inc.location = some (x, y) ∧
      x < f.grid_width ∧ y < f.grid_height) :
    ∀ inc ∈ (f.step now).2.tracker.heap, ∃ x y, inc.location = some (x, y) ∧
      x < f.grid_width ∧ y < f.grid_height := by
  have hf2 := makeIncidents_loc now
    (Rng.poissonCount (f.config.incidents_per_min / 60) f.state.rng).1
    f.grid_width f.grid_height
    { f with state := { f.state with rng :=
        (Rng.poissonCount (f.config.incidents_per_min / 60) f.state.rng).2 } }
    rfl rfl hw hh hprev
  intro inc hinc
  rw [step_heap_eq, IncidentsFeed.sweep] at hinc
  exact sweep_loc now _ _ f.grid_width f.grid_height hf2 inc hinc

/-! ### Run-level invariants -/

theorem runSteps_ids : ∀ (ts : List ℚ) (f : IncidentsFeed),
    f.tracker.counter = f.tracker.heap.length →
    f.tracker.heap.map Incident.identifier
      = (List.range f.tracker.heap.length).map (fun k => identifierFor (k + 1)) →
    (f.runSteps ts).2.tracker.counter = (f.runSteps ts).2.tracker.heap.length ∧
    (f.runSteps ts).2.tracker.heap.map Incident.identifier
      = (List.range (f.runSteps ts).2.tracker.heap.length).map (fun k => identifierFor (k + 1))
  | [], _, hcnt, hids => ⟨hcnt, hids⟩
  | t :: ts, f, hcnt, hids =>
    runSteps_ids ts (f.step t).2 (step_ids f t hcnt hids).1 (step_ids f t hcnt hids).2

theorem runSteps_loc : ∀ (ts : List ℚ) (f : IncidentsFeed),
    0 < f.grid_width → 0 < f.grid_height →
    (∀ inc ∈ f.tracker.heap, ∃ x y, inc.location = some (x, y) ∧
      x < f.grid_width ∧ y < f.grid_height) →
    ∀ inc ∈ (f.runSteps ts).2.tracker.heap, ∃ x y, inc.location = some (x, y) ∧
      x < f.grid_width ∧ y < f.grid_height
  | [], _, _, _, hprev => hprev
  | t :: ts, f, hw, hh, hprev => by
    intro inc hinc
    have hfr := step_frame f t
    have hprev' : ∀ inc ∈ (f.step t).2.tracker.heap, ∃ x y, inc.location = some (x, y) ∧
        x < (f.step t).2.grid_width ∧ y < (f.step t).2.grid_height := by
      rw [hfr.2.1, hfr.2.2]
      exact step_loc f t hw hh hprev
    have hrec := runSteps_loc ts (f.step t).2 (by rw [hfr.2.1]; exact hw)
      (by rw [hfr.2.2]; exact hh) hprev' inc hinc
    rw [hfr.2.1, hfr.2.2] at hrec
    exact hrec

theorem runSteps_rank_mono : ∀ (ts : List ℚ) (g : IncidentsFeed) (k : Nat) (a b : Incident),
    g.tracker.heap[k]? = some a →
    (g.runSteps ts).2.tracker.heap[k]? = some b →
    statusRank a.status ≤ statusRank b.status
  | [], g, k, a, b, ha, hb => by
    have hb' : g.tracker.heap[k]? = some b := hb
    rw [ha] at hb'
    rw [Option.some_inj.mp hb']
  | t :: ts, g, k, a, b, ha, hb => by
    obtain ⟨mid, hmid, hrank, -, -⟩ := step_cell_mono g t k a ha
    exact le_trans hrank (runSteps_rank_mono ts (g.step t).2 k mid b hmid hb)

theorem clipQ_bounds (x lo hi : ℚ) (h : lo ≤ hi) :
    lo ≤ clipQ x lo hi ∧ clipQ x lo hi ≤ hi :=
  ⟨le_min (le_max_right x lo) h, min_le_right _ _⟩

/-! ### The claims -/

/-- C1.  Two `IncidentsFeed` instances constructed over `FeedState` with the
same seed and the same valid configuration, driven through the same sequence
of `step()` calls (the tick instants of the spec's simulated clock), emit
identical sequences of incident identifiers, severities, categories, regions
and grid locations.  In the embedding the generator is a pure function of
(seed, call sequence) and wall-clock time is the explicit tick input, so the
whole run is a pure function of the construction arguments. -/
theorem incidents_trace_deterministic (cfg : FeedConfig) (mc : MapConfig) (seed : ℤ)
    (ts : List ℚ) (f1 f2 : IncidentsFeed)
    (hv : cfg.valid) (hm : mc.valid)
    (h1 : f1 = IncidentsFeed.make cfg mc seed) (h2 : f2 = IncidentsFeed.make cfg mc seed) :
    traceView (f1.runSteps ts).1 = traceView (f2.runSteps ts).1 := by
  rw [h1, h2]

theorem incidents_trace_deterministic_witness :
    (FeedConfig.valid {} ∧ MapConfig.valid {}) ∧
      traceView ((IncidentsFeed.make {} {} 1337).runSteps [0, 1]).1
        = traceView ((IncidentsFeed.make {} {} 1337).runSteps [0, 1]).1 :=
  ⟨⟨by with_unfolding_all decide, by with_unfolding_all decide⟩,
   incidents_trace_deterministic {} {} 1337 [0, 1]
     (IncidentsFeed.make {} {} 1337) (IncidentsFeed.make {} {} 1337)
     (by with_unfolding_all decide) (by with_unfolding_all decide) rfl rfl⟩

/-- C2 counterexample.  `witnessFeedA` starts with an empty tracker; its one
`step` call creates exactly one incident (the counter moves 0 → 1) and the
progression roll advances it within the same tick.  Python's emitted list
holds live references, so the creation entry (the first element) carries
`ACKNOWLEDGED`, not `NEW`: no emitted entry of this call carries `NEW` at
all, refuting "the creation entry carries status NEW". -/
theorem creation_entry_snapshot_counterexample :
    witnessFeedA.tracker.heap = [] ∧
      (witnessFeedA.step 0).2.tracker.counter = 1 ∧
      (witnessFeedA.step 0).1.map Incident.status = [.ACKNOWLEDGED, .ACKNOWLEDGED] ∧
      (witnessFeedA.step 0).1.map Incident.identifier = ["A0001", "A0001"] ∧
      ¬ ∃ e ∈ (witnessFeedA.step 0).1, e.status = .NEW := by
  with_unfolding_all decide

/-- C2 (amended).  Every event in the list returned by `step` is the state
of the emitted incident object at the *end* of the call, not a snapshot at
the moment of change: each entry equals a cell of the post-tick heap, so a
creation entry carries `NEW` only when the incident was not advanced later
within the same tick. -/
theorem emitted_entries_are_end_of_step_states (f : IncidentsFeed) (now : ℚ) (e : Incident)
    (he : e ∈ (f.step now).1) :
    ∃ i : Nat, (f.step now).2.tracker.heap[i]? = some e := by
  rw [step_emitted_eq] at he
  obtain ⟨i, -, hi⟩ := List.mem_filterMap.mp he
  exact ⟨i, by rw [step_heap_eq]; exact hi⟩

theorem emitted_entries_are_end_of_step_states_witness :
    witnessIncidentA ∈ (witnessFeedA.step 0).1 ∧
      ∃ i : Nat, (witnessFeedA.step 0).2.tracker.heap[i]? = some witnessIncidentA :=
  ⟨by with_unfolding_all decide,
   emitted_entries_are_end_of_step_states witnessFeedA 0 witnessIncidentA
     (by with_unfolding_all decide)⟩

/-- C3.  A tracked non-resolved incident whose elapsed time since
`last_update` has reached its auto-resolve deadline at tick time is emitted
by the next `step` call with status `RESOLVED` regardless of its prior
status, and the auto-resolve branch consumes no progression roll (the
generator is passed through unchanged by that iteration). -/
theorem autoresolve_forces_resolved_emission (f : IncidentsFeed) (now : ℚ) (i : Nat)
    (inc : Incident)
    (hnd : f.tracker.activeIdx.Nodup)
    (hmem : i ∈ f.tracker.activeIdx)
    (hget : f.tracker.heap[i]? = some inc)
    (hst : inc.status ≠ .RESOLVED)
    (har : inc.can_autoresolve now = true) :
    (∃ e ∈ (f.step now).1, e.identifier = inc.identifier ∧ e.status = .RESOLVED) ∧
      ∀ acc : List Incident × Rng × List Nat,
        acc.1[i]? = some inc → (processOne now acc i).2.1 = acc.2.1 := by
  constructor
  · obtain ⟨-, hmem'⟩ := step_autoresolve_core f now i inc hnd hmem hget hst har
    exact ⟨_, hmem', rfl, rfl⟩
  · intro acc hacc
    rw [processOne_autoresolve now acc i inc hacc hst har]

theorem autoresolve_forces_resolved_emission_witness :
    (witnessFeedB.tracker.activeIdx.Nodup ∧ 0 ∈ witnessFeedB.tracker.activeIdx ∧
      witnessFeedB.tracker.heap[0]? = some witnessIncidentB ∧
      witnessIncidentB.status ≠ .RESOLVED ∧ witnessIncidentB.can_autoresolve 11 = true) ∧
      ((∃ e ∈ (witnessFeedB.step 11).1, e.identifier = witnessIncidentB.identifier ∧
          e.status = .RESOLVED) ∧
        ∀ acc : List Incident × Rng × List Nat,
          acc.1[0]? = some witnessIncidentB → (processOne 11 acc 0).2.1 = acc.2.1) :=
  ⟨⟨by with_unfolding_all decide, by with_unfolding_all decide, by with_unfolding_all decide,
    by with_unfolding_all decide, by with_unfolding_all decide⟩,
   autoresolve_forces_resolved_emission witnessFeedB 11 0 witnessIncidentB
     (by with_unfolding_all decide) (by with_unfolding_all decide)
     (by with_unfolding_all decide) (by with_unfolding_all decide)
     (by with_unfolding_all decide)⟩

/-- C4.  After any `step` call, every index kept in the tracker's active set
points at a heap cell whose status is not `RESOLVED` — including incidents
that reached `RESOLVED` during that same call, since the purge filter reads
the post-sweep heap. -/
theorem no_resolved_incident_remains_after_step (f : IncidentsFeed) (now : ℚ) (i : Nat)
    (hi : i ∈ (f.step now).2.tracker.activeIdx) :
    ∃ inc, (f.step now).2.tracker.heap[i]? = some inc ∧ inc.status ≠ .RESOLVED := by
  rw [step_active_eq] at hi
  rw [step_heap_eq]
  exact purgeActive_mem _ _ i hi

theorem no_resolved_incident_remains_after_step_witness :
    0 ∈ (witnessFeedA.step 0).2.tracker.activeIdx ∧
      ∃ inc, (witnessFeedA.step 0).2.tracker.heap[0]? = some inc ∧
        inc.status ≠ .RESOLVED :=
  ⟨by with_unfolding_all decide,
   no_resolved_incident_remains_after_step witnessFeedA 0 0 (by with_unfolding_all decide)⟩

/-- C5.  Starting from any feed whose tracker satisfies the construction
invariant (counter = number of created incidents, and the creation sequence
carries identifiers `A0001, A0002, …` in order — trivially true of a fresh
feed), after any sequence of `step` calls the N-th created incident (heap
cell N−1) has identifier `identifierFor N`, regardless of purges, which
never touch the creation sequence; and `identifierFor 4 = "A0004"`. -/
theorem nth_incident_identifier (f : IncidentsFeed) (ts : List ℚ)
    (hcnt : f.tracker.counter = f.tracker.heap.length)
    (hids : f.tracker.heap.map Incident.identifier
      = (List.range f.tracker.heap.length).map (fun k => identifierFor (k + 1))) :
    (∀ (i : Nat) (inc : Incident), (f.runSteps ts).2.tracker.heap[i]? = some inc →
       inc.identifier = identifierFor (i + 1)) ∧
      identifierFor 4 = "A0004" := by
  constructor
  · intro i inc hget
    exact ids_pointwise _ (runSteps_ids ts f hcnt hids).2 i inc hget
  · with_unfolding_all decide

theorem nth_incident_identifier_witness :
    (witnessFeedA.tracker.counter = witnessFeedA.tracker.heap.length ∧
      witnessFeedA.tracker.heap.map Incident.identifier
        = (List.range witnessFeedA.tracker.heap.length).map (fun k => identifierFor (k + 1))) ∧
      ((∀ (i : Nat) (inc : Incident),
          (witnessFeedA.runSteps [0]).2.tracker.heap[i]? = some inc →
          inc.identifier = identifierFor (i + 1)) ∧
        identifierFor 4 = "A0004") :=
  ⟨⟨by with_unfolding_all decide, by with_unfolding_all decide⟩,
   nth_incident_identifier witnessFeedA [0] (by with_unfolding_all decide)
     (by with_unfolding_all decide)⟩

/-- C6.  Status progression is monotone along the lifecycle order: one
`step` transforms a tracked heap cell either not at all, by exactly one
`advance_status` step (only when its deadline has not elapsed), or directly
to `RESOLVED` via the auto-resolve path (only when it has); `advance_status`
itself never skips a state; and over any number of `step` calls the rank of
an incident's status never decreases. -/
theorem status_progression_monotone (f : IncidentsFeed) (now : ℚ) (i : Nat) (inc : Incident)
    (hnd : f.tracker.activeIdx.Nodup)
    (hmem : i ∈ f.tracker.activeIdx)
    (hget : f.tracker.heap[i]? = some inc) :
    (∃ inc', (f.step now).2.tracker.heap[i]? = some inc' ∧
       statusRank inc.status ≤ statusRank inc'.status ∧
       (inc' = inc ∨
        (inc' = inc.advance_status now ∧ inc.status ≠ .RESOLVED ∧
          inc.can_autoresolve now = false) ∨
        (inc' = { inc with status := .RESOLVED, last_update := now } ∧
          inc.status ≠ .RESOLVED ∧ inc.can_autoresolve now = true))) ∧
      (∀ (j : Incident) (t : ℚ),
        statusRank j.status ≤ statusRank (j.advance_status t).status ∧
        statusRank (j.advance_status t).status ≤ statusRank j.status + 1) ∧
      (∀ (g : IncidentsFeed) (ts2 : List ℚ) (k : Nat) (a b : Incident),
        g.tracker.heap[k]? = some a →
        (g.runSteps ts2).2.tracker.heap[k]? = some b →
        statusRank a.status ≤ statusRank b.status) := by
  refine ⟨?_, advance_status_rank,
    fun g ts2 k a b ha hb => runSteps_rank_mono ts2 g k a b ha hb⟩
  obtain ⟨inc', hfin, hbr⟩ := step_char f now i inc hnd hmem hget
  refine ⟨inc', hfin, ?_, hbr⟩
  rcases hbr with h | ⟨h, -, -⟩ | ⟨h, -, -⟩
  · rw [h]
  · rw [h]; exact (advance_status_rank inc now).1
  · rw [h]; exact statusRank_le_three inc.status

theorem status_progression_monotone_witness :
    (witnessFeedB.tracker.activeIdx.Nodup ∧ 0 ∈ witnessFeedB.tracker.activeIdx ∧
      witnessFeedB.tracker.heap[0]? = some witnessIncidentB) ∧
      ((∃ inc', (witnessFeedB.step 11).2.tracker.heap[0]? = some inc' ∧
         statusRank witnessIncidentB.status ≤ statusRank inc'.status ∧
         (inc' = witnessIncidentB ∨
          (inc' = witnessIncidentB.advance_status 11 ∧ witnessIncidentB.status ≠ .RESOLVED ∧
            witnessIncidentB.can_autoresolve 11 = false) ∨
          (inc' = { witnessIncidentB with status := .RESOLVED, last_update := 11 } ∧
            witnessIncidentB.status ≠ .RESOLVED ∧
            witnessIncidentB.can_autoresolve 11 = true))) ∧
        (∀ (j : Incident) (t : ℚ),
          statusRank j.status ≤ statusRank (j.advance_status t).status ∧
          statusRank (j.advance_status t).status ≤ statusRank j.status + 1) ∧
        (∀ (g : IncidentsFeed) (ts2 : List ℚ) (k : Nat) (a b : Incident),
          g.tracker.heap[k]? = some a →
          (g.runSteps ts2).2.tracker.heap[k]? = some b →
          statusRank a.status ≤ statusRank b.status)) :=
  ⟨⟨by with_unfolding_all decide, by with_unfolding_all decide, by with_unfolding_all decide⟩,
   status_progression_monotone witnessFeedB 11 0 witnessIncidentB
     (by with_unfolding_all decide) (by with_unfolding_all decide)
     (by with_unfolding_all decide)⟩

/-- C7.  Every sample returned by `MetricsFeed.sample` — from any internal
state whatever, in particular any state reachable from the 55.0/48.0
baselines, and for any generator draws — has `cpu_percent` clamped into
`[1, 98]` and `memory_percent` clamped into `[5, 95]`. -/
theorem metric_sample_bounded (m : MetricsFeed) (rng : Rng) (now : ℚ) :
    1 ≤ (m.sample rng now).1.cpu_percent ∧ (m.sample rng now).1.cpu_percent ≤ 98 ∧
      5 ≤ (m.sample rng now).1.memory_percent ∧ (m.sample rng now).1.memory_percent ≤ 95 := by
  have key : ∀ c me d1 d2 : ℚ,
      1 ≤ clipQ (c + d1) 1 98 ∧ clipQ (c + d1) 1 98 ≤ 98 ∧
      5 ≤ clipQ (me + d2) 5 95 ∧ clipQ (me + d2) 5 95 ≤ 95 :=
    fun c me d1 d2 =>
      ⟨(clipQ_bounds (c + d1) 1 98 (by norm_num)).1,
       (clipQ_bounds (c + d1) 1 98 (by norm_num)).2,
       (clipQ_bounds (me + d2) 5 95 (by norm_num)).1,
       (clipQ_bounds (me + d2) 5 95 (by norm_num)).2⟩
  exact key m.cpu m.mem _ _

/-- C8.  From any feed whose tracked incidents all lie inside the configured
grid (trivially true of a fresh feed) and whose grid dimensions exceed 1,
every incident in the heap after any run of `step` calls has a location
`(x, y)` with `0 ≤ x < grid_width` and `0 ≤ y < grid_height` (`x y : ℕ`,
so the lower bounds are inherent); moreover no `step` call ever changes the
location of an existing incident. -/
theorem incident_location_in_grid (f : IncidentsFeed) (ts : List ℚ)
    (hw : 1 < f.grid_width) (hh : 1 < f.grid_height)
    (hprev : ∀ inc ∈ f.tracker.heap, ∃ x y, inc.location = some (x, y) ∧
      x < f.grid_width ∧ y < f.grid_height) :
    (∀ inc ∈ (f.runSteps ts).2.tracker.heap, ∃ x y, inc.location = some (x, y) ∧
       x < f.grid_width ∧ y < f.grid_height) ∧
      (∀ (g : IncidentsFeed) (t : ℚ) (k : Nat) (a : Incident),
        g.tracker.heap[k]? = some a →
        ∃ b, (g.step t).2.tracker.heap[k]? = some b ∧ b.location = a.location) := by
  constructor
  · exact runSteps_loc ts f (by omega) (by omega) hprev
  · intro g t k a ha
    obtain ⟨b, hb, -, -, hloc⟩ := step_cell_mono g t k a ha
    exact ⟨b, hb, hloc⟩

theorem incident_location_in_grid_witness :
    (1 < witnessFeedA.grid_width ∧ 1 < witnessFeedA.grid_height ∧
      ∀ inc ∈ witnessFeedA.tracker.heap, ∃ x y, inc.location = some (x, y) ∧
        x < witnessFeedA.grid_width ∧ y < witnessFeedA.grid_height) ∧
      ((∀ inc ∈ (witnessFeedA.runSteps [0]).2.tracker.heap,
         ∃ x y, inc.location = some (x, y) ∧
           x < witnessFeedA.grid_width ∧ y < witnessFeedA.grid_height) ∧
       (∀ (g : IncidentsFeed) (t : ℚ) (k : Nat) (a : Incident),
         g.tracker.heap[k]? = some a →
         ∃ b, (g.step t).2.tracker.heap[k]? = some b ∧ b.location = a.location)) :=
  ⟨⟨by with_unfolding_all decide, by with_unfolding_all decide,
    fun inc hinc => absurd hinc (List.not_mem_nil inc)⟩,
   incident_location_in_grid witnessFeedA [0] (by with_unfolding_all decide)
     (by with_unfolding_all decide) (fun inc hinc => absurd hinc (List.not_mem_nil inc))⟩

/-- C9.  `FeedState.reset` with no argument reinitializes the generator
exactly as a freshly constructed `FeedState` with the stored seed (so the
subsequent draw sequence replays from scratch), while `reset s'` both
reinitializes from `s'` and stores `s'` as the seed used by all future
no-argument resets. -/
theorem feedstate_reset_replays_seed (st : FeedState) (s' : ℤ) :
    st.reset none = FeedState.make st.seed ∧
      st.reset (some s') = FeedState.make s' ∧
      (st.reset (some s')).seed = s' ∧
      (st.reset (some s')).reset none = FeedState.make s' :=
  ⟨rfl, rfl, rfl, rfl⟩

/-- C10.  The auto-resolve transition mutates only `status` and
`last_update`: a tracked `NEW`, not-yet-acknowledged incident whose deadline
has elapsed is emitted with status `RESOLVED` and `acknowledged` still
`false`, every other field unchanged; the `acknowledged` flag is set to
`true` only by `advance_status` on the `NEW → ACKNOWLEDGED` move; and
`advance_status` changes no field other than `status`, `acknowledged` and
`last_update`. -/
theorem autoresolve_frame_effect (f : IncidentsFeed) (now : ℚ) (i : Nat) (inc : Incident)
    (hnd : f.tracker.activeIdx.Nodup)
    (hmem : i ∈ f.tracker.activeIdx)
    (hget : f.tracker.heap[i]? = some inc)
    (hnew : inc.status = .NEW)
    (hack : inc.acknowledged = false)
    (har : inc.can_autoresolve now = true) :
    (∃ e ∈ (f.step now).1, e.status = .RESOLVED ∧ e.acknowledged = false ∧
       e.identifier = inc.identifier ∧ e.severity = inc.severity ∧
       e.category = inc.category ∧ e.region = inc.region ∧
       e.description = inc.description ∧ e.autoresolve_after = inc.autoresolve_after ∧
       e.location = inc.location ∧ e.timestamp = inc.timestamp ∧ e.last_update = now) ∧
      (∀ (j : Incident) (t : ℚ),
        (j.advance_status t).acknowledged = (j.acknowledged || decide (j.status = .NEW))) ∧
      (∀ (j : Incident) (t : ℚ),
        (j.advance_status t).identifier = j.identifier ∧
        (j.advance_status t).severity = j.severity ∧
        (j.advance_status t).category = j.category ∧
        (j.advance_status t).region = j.region ∧
        (j.advance_status t).description = j.description ∧
        (j.advance_status t).autoresolve_after = j.autoresolve_after ∧
        (j.advance_status t).location = j.location ∧
        (j.advance_status t).timestamp = j.timestamp) := by
  refine ⟨?_, ?_, advance_status_frame⟩
  · have hst : inc.status ≠ .RESOLVED := by rw [hnew]; intro hc; cases hc
    obtain ⟨-, hmem'⟩ := step_autoresolve_core f now i inc hnd hmem hget hst har
    exact ⟨_, hmem', rfl, hack, rfl, rfl, rfl, rfl, rfl, rfl, rfl, rfl, rfl⟩
  · intro j t
    cases hs : j.status <;> simp [Incident.advance_status, hs]

theorem autoresolve_frame_effect_witness :
    (witnessFeedB.tracker.activeIdx.Nodup ∧ 0 ∈ witnessFeedB.tracker.activeIdx ∧
      witnessFeedB.tracker.heap[0]? = some witnessIncidentB ∧
      witnessIncidentB.status = .NEW ∧ witnessIncidentB.acknowledged = false ∧
      witnessIncidentB.can_autoresolve 11 = true) ∧
      ((∃ e ∈ (witnessFeedB.step 11).1, e.status = .RESOLVED ∧ e.acknowledged = false ∧
         e.identifier = witnessIncidentB.identifier ∧ e.severity = witnessIncidentB.severity ∧
         e.category = witnessIncidentB.category ∧ e.region = witnessIncidentB.region ∧
         e.description = witnessIncidentB.description ∧
         e.autoresolve_after = witnessIncidentB.autoresolve_after ∧
         e.location = witnessIncidentB.location ∧
         e.timestamp = witnessIncidentB.timestamp ∧ e.last_update = 11) ∧
       (∀ (j : Incident) (t : ℚ),
         (j.advance_status t).acknowledged = (j.acknowledged || decide (j.status = .NEW))) ∧
       (∀ (j : Incident) (t : ℚ),
         (j.advance_status t).identifier = j.identifier ∧
         (j.advance_status t).severity = j.severity ∧
         (j.advance_status t).category = j.category ∧
         (j.advance_status t).region = j.region ∧
         (j.advance_status t).description = j.description ∧
         (j.advance_status t).autoresolve_after = j.autoresolve_after ∧
         (j.advance_status t).location = j.location ∧
         (j.advance_status t).timestamp = j.timestamp)) :=
  ⟨⟨by with_unfolding_all decide, by with_unfolding_all decide, by with_unfolding_all decide,
    by with_unfolding_all decide, by with_unfolding_all decide, by with_unfolding_all decide⟩,
   autoresolve_frame_effect witnessFeedB 11 0 witnessIncidentB
     (by with_unfolding_all decide) (by with_unfolding_all decide)
     (by with_unfolding_all decide) (by with_unfolding_all decide)
     (by with_unfolding_all decide) (by with_unfolding_all decide)⟩

end FakeOps
